import Mathlib

/-!
# The Blinn shader writer of maya-usd (usdBlinnWriter.cpp)

A shallow embedding of `PxrUsdTranslators_BlinnWriter`: its three overridden
operations `Write`, `WriteSpecular` and
`GetShadingAttributeNameForMayaAttrName`, over a functional model of the source
shading node and of the destination shader prim.

* `F` is the type of single-precision scalars. Only its multiplication is
  used, so every result holds for whatever product the machine computes.
* `T` is the type of time codes; only equality of time codes is used.
-/

namespace MayaUsd

/-- Tokens are interned strings; only their text matters here. -/
abbrev TfToken := String

/-- The value type names used by the writer. -/
inductive SdfValueTypeName where
  | float
  | color3f
  | int
  deriving DecidableEq, Repr

/-- A type-erased value: a scalar, a three-component vector or an integer. -/
inductive VtValue (F : Type) where
  | float (x : F)
  | vec3f (x y z : F)
  | int (n : Int)
  deriving DecidableEq, Repr

/-- The value type name under which a value of the given kind is authored. -/
def VtValue.typeName {F : Type} : VtValue F → SdfValueTypeName
  | .float _ => .float
  | .vec3f _ _ _ => .color3f
  | .int _ => .int

/-- Multiplication of a three-component vector by a scalar, component-wise. -/
def GfVec3f.scale {F : Type} [Mul F] (r : F) (x y z : F) : VtValue F :=
  .vec3f (r * x) (r * y) (r * z)

/-- The source shading node seen through a function set: reading an attribute
by name yields a typed value, or fails. -/
structure MFnDependencyNode (F : Type) where
  attr : TfToken → Option (VtValue F)

/-- An attribute of the destination prim: its type name and its value at each
time code where one is authored. -/
structure UsdAttribute (F T : Type) where
  typeName : SdfValueTypeName
  samples : T → Option (VtValue F)

/-- The destination prim. `valid` is what `_usdPrim` converts to, `isShader`
says whether the prim is a `UsdShadeShader`, and `attributes` holds the
authored attributes by full name. -/
structure UsdPrim (F T : Type) where
  valid : Bool
  isShader : Bool
  attributes : TfToken → Option (UsdAttribute F T)

/-- The private tokens of the writer (`_tokens`). -/
def tokens.eccentricity : TfToken := "eccentricity"

def tokens.specularColor : TfToken := "specularColor"

def tokens.specularRollOff : TfToken := "specularRollOff"

def tokens.roughness : TfToken := "roughness"

def tokens.useSpecularWorkflow : TfToken := "useSpecularWorkflow"

/-- The namespace that qualifies shader input names (`UsdShadeTokens->inputs`). -/
def UsdShadeTokens.inputs : TfToken := "inputs:"

/-- Truth value of a shader schema object built on a prim: the prim is valid
and is a shader. -/
def UsdShadeShader.isValid {F T : Type} (p : UsdPrim F T) : Bool :=
  p.valid && p.isShader

/-- The diagnostic check `TF_VERIFY`: it reports a failed condition and yields
the condition. -/
def TF_VERIFY (cond : Bool) : Bool := cond

/-- The samples of the named attribute of a prim; an absent attribute has none. -/
def UsdPrim.samplesOf {F T : Type} (p : UsdPrim F T) (attrName : TfToken) :
    T → Option (VtValue F) :=
  match p.attributes attrName with
  | some a => a.samples
  | none => fun _ => none

/-- Modelled from the spec: the typed-attribute-authoring capability of the
destination shader, first half (`UsdShadeShader::CreateInput`, from the USD
library). The input of the given name exists afterwards in the inputs
namespace, carries the given type name, and keeps the samples it had. -/
def UsdShadeShader.CreateInput {F T : Type} (p : UsdPrim F T) (name : TfToken)
    (typeName : SdfValueTypeName) : UsdPrim F T :=
  let attrName := UsdShadeTokens.inputs ++ name
  { p with
    attributes := Function.update p.attributes attrName
      (some { typeName := typeName, samples := p.samplesOf attrName }) }

/-- Modelled from the spec: the typed-attribute-authoring capability of the
destination shader, second half (`UsdShadeInput::Set`, from the USD library).
The value becomes the sample of the named input at the given time code; the
other samples and the other attributes stay. -/
def UsdShadeInput.Set {F T : Type} [DecidableEq T] (p : UsdPrim F T) (name : TfToken)
    (value : VtValue F) (usdTime : T) : UsdPrim F T :=
  let attrName := UsdShadeTokens.inputs ++ name
  match p.attributes attrName with
  | none => p
  | some a =>
    { p with
      attributes := Function.update p.attributes attrName
        (some { a with samples := Function.update a.samples usdTime (some value) }) }

/-- The input of a shader by its unqualified name (`UsdShadeShader::GetInput`). -/
def UsdShadeShader.GetInput {F T : Type} (p : UsdPrim F T) (name : TfToken) :
    Option (UsdAttribute F T) :=
  p.attributes (UsdShadeTokens.inputs ++ name)

/-- The value of a shader input at a time code, when the input exists and has a
sample there. -/
def UsdShadeShader.inputValue {F T : Type} (p : UsdPrim F T) (name : TfToken) (usdTime : T) :
    Option (VtValue F) :=
  (UsdShadeShader.GetInput p name).bind fun a => a.samples usdTime

/-- Modelled from the spec: `AuthorShaderInputFromShadingNodeAttr`, inherited
from the material writer; its code is in usdMaterialWriter.cpp, outside
usdBlinnWriter.cpp. It reads the named source attribute and copies its value
onto the named destination input at the given time code; when the read fails
nothing is authored. -/
def AuthorShaderInputFromShadingNodeAttr {F T : Type} [DecidableEq T]
    (depNodeFn : MFnDependencyNode F) (shadingNodeAttrName : TfToken)
    (shaderSchema : UsdPrim F T) (shaderInputName : TfToken) (usdTime : T) : UsdPrim F T :=
  match depNodeFn.attr shadingNodeAttrName with
  | none => shaderSchema
  | some value =>
    UsdShadeInput.Set (UsdShadeShader.CreateInput shaderSchema shaderInputName value.typeName)
      shaderInputName value usdTime

/-- Modelled from the spec: `AuthorShaderInputFromScaledShadingNodeAttr`,
inherited from the material writer; its code is in usdMaterialWriter.cpp,
outside usdBlinnWriter.cpp. It reads the named source colour and the named
source scalar and copies the colour, scaled component-wise by the scalar, onto
the named destination input at the given time code. The spec does not say what
is authored when one of the two reads fails or yields another kind of value;
here nothing is authored then. -/
def AuthorShaderInputFromScaledShadingNodeAttr {F T : Type} [Mul F] [DecidableEq T]
    (depNodeFn : MFnDependencyNode F) (shadingNodeAttrName : TfToken)
    (shaderSchema : UsdPrim F T) (shaderInputName : TfToken) (usdTime : T)
    (scalingAttrName : TfToken) : UsdPrim F T :=
  match depNodeFn.attr shadingNodeAttrName, depNodeFn.attr scalingAttrName with
  | some (.vec3f x y z), some (.float r) =>
    UsdShadeInput.Set (UsdShadeShader.CreateInput shaderSchema shaderInputName .color3f)
      shaderInputName (GfVec3f.scale r x y z) usdTime
  | _, _ => shaderSchema

/-- The operations inherited from `PxrUsdTranslators_ReflectWriter` (the
`baseClass` of the Blinn writer). Their code is in usdReflectWriter.cpp, outside
usdBlinnWriter.cpp, so they are taken as arbitrary operations on the source
handle, the destination prim and the time code. -/
structure PxrUsdTranslators_ReflectWriter (F T : Type) where
  Write : Option (MFnDependencyNode F) → UsdPrim F T → T → UsdPrim F T
  WriteSpecular : Option (MFnDependencyNode F) → UsdPrim F T → T → UsdPrim F T
  GetShadingAttributeNameForMayaAttrName : UsdPrim F T → TfToken → TfToken

namespace PxrUsdTranslators_BlinnWriter

/-- `PxrUsdTranslators_BlinnWriter::Write`. The argument `mayaObject` is the
outcome of building `MFnDependencyNode depNodeFn(GetMayaObject(), &status)`:
`none` when the status is not `MS::kSuccess`. -/
def Write {F T : Type} [DecidableEq T] (baseClass : PxrUsdTranslators_ReflectWriter F T)
    (mayaObject : Option (MFnDependencyNode F)) (usdPrim : UsdPrim F T) (usdTime : T) :
    UsdPrim F T :=
  let usdPrim := baseClass.Write mayaObject usdPrim usdTime
  match mayaObject with
  | none => usdPrim
  | some depNodeFn =>
    if !TF_VERIFY (UsdShadeShader.isValid usdPrim) then usdPrim
    else
      AuthorShaderInputFromShadingNodeAttr depNodeFn tokens.eccentricity usdPrim
        tokens.roughness usdTime

/-- `PxrUsdTranslators_BlinnWriter::WriteSpecular`. The inherited operations
are in scope but none is called. -/
def WriteSpecular {F T : Type} [Mul F] [DecidableEq T]
    (_baseClass : PxrUsdTranslators_ReflectWriter F T)
    (mayaObject : Option (MFnDependencyNode F)) (usdPrim : UsdPrim F T) (usdTime : T) :
    UsdPrim F T :=
  match mayaObject with
  | none => usdPrim
  | some depNodeFn =>
    let shaderSchema :=
      AuthorShaderInputFromScaledShadingNodeAttr depNodeFn tokens.specularColor usdPrim
        tokens.specularColor usdTime tokens.specularRollOff
    UsdShadeInput.Set
      (UsdShadeShader.CreateInput shaderSchema tokens.useSpecularWorkflow .int)
      tokens.useSpecularWorkflow (.int 1) usdTime

/-- `PxrUsdTranslators_BlinnWriter::GetShadingAttributeNameForMayaAttrName`.
The empty token is the empty string. -/
def GetShadingAttributeNameForMayaAttrName {F T : Type}
    (baseClass : PxrUsdTranslators_ReflectWriter F T) (usdPrim : UsdPrim F T)
    (mayaAttrName : TfToken) : TfToken :=
  if !usdPrim.valid then ""
  else if mayaAttrName = tokens.eccentricity then
    UsdShadeTokens.inputs ++ tokens.roughness
  else baseClass.GetShadingAttributeNameForMayaAttrName usdPrim mayaAttrName

end PxrUsdTranslators_BlinnWriter

/-- Modelled from the spec: the inherited Write of the reflect writer, whose
code is in usdReflectWriter.cpp, outside usdBlinnWriter.cpp. By the failure
semantics of the spec, a write operation on a node handle that cannot be
resolved returns without authoring anything; on a resolved handle the
inherited attribute copying is an arbitrary operation `copy`. -/
def ReflectWriter_Write {F T : Type} (copy : MFnDependencyNode F → UsdPrim F T → T → UsdPrim F T) :
    Option (MFnDependencyNode F) → UsdPrim F T → T → UsdPrim F T
  | none, usdPrim, _ => usdPrim
  | some depNodeFn, usdPrim, usdTime => copy depNodeFn usdPrim usdTime

/-! ## Concrete data used to evaluate the operations -/

/-- A destination prim without any attribute. -/
def emptyPrim (valid isShader : Bool) : UsdPrim Int Int :=
  { valid := valid, isShader := isShader, attributes := fun _ => none }

/-- Inherited operations that author nothing and map every name to itself. -/
def idBase : PxrUsdTranslators_ReflectWriter Int Int :=
  { Write := fun _ p _ => p
    WriteSpecular := fun _ p _ => p
    GetShadingAttributeNameForMayaAttrName := fun _ n => n }

/-- A source node with eccentricity 3, specular colour (2, 3, 5) and specular
roll-off 7. -/
def blinnNode : MFnDependencyNode Int :=
  { attr := fun n =>
      if n = "eccentricity" then some (.float 3)
      else if n = "specularColor" then some (.vec3f 2 3 5)
      else if n = "specularRollOff" then some (.float 7)
      else none }

/-- Inherited operations whose Write authors a diffuse colour at the given time
code whatever the source handle is. -/
def stampBase : PxrUsdTranslators_ReflectWriter Int Int :=
  { idBase with
    Write := fun _ p t =>
      UsdShadeInput.Set (UsdShadeShader.CreateInput p "diffuseColor" .color3f)
        "diffuseColor" (.vec3f 1 1 1) t }

theorem inputValue_eq_samplesOf {F T : Type} (p : UsdPrim F T) (name : TfToken) (t : T) :
    UsdShadeShader.inputValue p name t = p.samplesOf (UsdShadeTokens.inputs ++ name) t := by
  unfold UsdShadeShader.inputValue UsdShadeShader.GetInput UsdPrim.samplesOf
  cases p.attributes (UsdShadeTokens.inputs ++ name) <;> rfl

section Authoring

variable {F T : Type} [DecidableEq T]

/-- Creating an input and setting its value at a time code, as one update of
the attribute table. -/
theorem author_eq (p : UsdPrim F T) (name : TfToken) (ty : SdfValueTypeName)
    (v : VtValue F) (t : T) :
    UsdShadeInput.Set (UsdShadeShader.CreateInput p name ty) name v t =
      { p with
        attributes := Function.update p.attributes (UsdShadeTokens.inputs ++ name)
          (some { typeName := ty
                  samples := Function.update (p.samplesOf (UsdShadeTokens.inputs ++ name)) t
                    (some v) }) } := by
  simp [UsdShadeInput.Set, UsdShadeShader.CreateInput]

theorem author_attributes_same (p : UsdPrim F T) (name : TfToken) (ty : SdfValueTypeName)
    (v : VtValue F) (t : T) :
    (UsdShadeInput.Set (UsdShadeShader.CreateInput p name ty) name v t).attributes
        (UsdShadeTokens.inputs ++ name)
      = some { typeName := ty
               samples := Function.update (p.samplesOf (UsdShadeTokens.inputs ++ name)) t
                 (some v) } := by
  rw [author_eq]; simp

theorem author_attributes_other (p : UsdPrim F T) (name : TfToken) (ty : SdfValueTypeName)
    (v : VtValue F) (t : T) (attrName : TfToken)
    (h : attrName ≠ UsdShadeTokens.inputs ++ name) :
    (UsdShadeInput.Set (UsdShadeShader.CreateInput p name ty) name v t).attributes attrName
      = p.attributes attrName := by
  rw [author_eq]; simp [Function.update_noteq h]

theorem inputValue_author_same (p : UsdPrim F T) (name : TfToken) (ty : SdfValueTypeName)
    (v : VtValue F) (t : T) :
    UsdShadeShader.inputValue
      (UsdShadeInput.Set (UsdShadeShader.CreateInput p name ty) name v t) name t = some v := by
  simp [UsdShadeShader.inputValue, UsdShadeShader.GetInput, author_attributes_same]

theorem inputValue_author_time (p : UsdPrim F T) (name : TfToken) (ty : SdfValueTypeName)
    (v : VtValue F) (t t1 : T) (h : t1 ≠ t) :
    UsdShadeShader.inputValue
      (UsdShadeInput.Set (UsdShadeShader.CreateInput p name ty) name v t) name t1
      = UsdShadeShader.inputValue p name t1 := by
  rw [inputValue_eq_samplesOf p]
  simp [UsdShadeShader.inputValue, UsdShadeShader.GetInput, author_attributes_same,
    Function.update_noteq h]

theorem inputs_append_ne {a b : TfToken} (h : a ≠ b) :
    UsdShadeTokens.inputs ++ a ≠ UsdShadeTokens.inputs ++ b := by
  intro e
  apply h
  have e1 := congrArg String.data e
  simp only [String.data_append] at e1
  exact String.ext (List.append_cancel_left e1)

theorem GetInput_author_other (p : UsdPrim F T) (name : TfToken) (ty : SdfValueTypeName)
    (v : VtValue F) (t : T) (other : TfToken) (h : other ≠ name) :
    UsdShadeShader.GetInput
      (UsdShadeInput.Set (UsdShadeShader.CreateInput p name ty) name v t) other
      = UsdShadeShader.GetInput p other := by
  unfold UsdShadeShader.GetInput
  exact author_attributes_other p name ty v t _ (inputs_append_ne h)

theorem inputValue_author_other (p : UsdPrim F T) (name : TfToken) (ty : SdfValueTypeName)
    (v : VtValue F) (t : T) (other : TfToken) (t1 : T) (h : other ≠ name) :
    UsdShadeShader.inputValue
      (UsdShadeInput.Set (UsdShadeShader.CreateInput p name ty) name v t) other t1
      = UsdShadeShader.inputValue p other t1 := by
  unfold UsdShadeShader.inputValue
  rw [GetInput_author_other p name ty v t other h]

end Authoring

/-! ## The operations over what they call -/

section Operations

variable {F T : Type} [DecidableEq T]

/-- On a source handle that cannot be resolved, Write is the inherited Write. -/
theorem Write_none (baseClass : PxrUsdTranslators_ReflectWriter F T)
    (p : UsdPrim F T) (t : T) :
    PxrUsdTranslators_BlinnWriter.Write baseClass none p t = baseClass.Write none p t := rfl

theorem Write_some_valid (baseClass : PxrUsdTranslators_ReflectWriter F T)
    (node : MFnDependencyNode F) (p : UsdPrim F T) (t : T)
    (h : UsdShadeShader.isValid (baseClass.Write (some node) p t) = true) :
    PxrUsdTranslators_BlinnWriter.Write baseClass (some node) p t =
      AuthorShaderInputFromShadingNodeAttr node tokens.eccentricity
        (baseClass.Write (some node) p t) tokens.roughness t := by
  simp [PxrUsdTranslators_BlinnWriter.Write, TF_VERIFY, h]

theorem Write_some_invalid (baseClass : PxrUsdTranslators_ReflectWriter F T)
    (node : MFnDependencyNode F) (p : UsdPrim F T) (t : T)
    (h : UsdShadeShader.isValid (baseClass.Write (some node) p t) = false) :
    PxrUsdTranslators_BlinnWriter.Write baseClass (some node) p t =
      baseClass.Write (some node) p t := by
  simp [PxrUsdTranslators_BlinnWriter.Write, TF_VERIFY, h]

/-- The copying helper leaves every attribute but the named input as it was. -/
theorem AuthorShaderInput_attributes_other (node : MFnDependencyNode F) (src : TfToken)
    (p : UsdPrim F T) (name : TfToken) (t : T) (attrName : TfToken)
    (h : attrName ≠ UsdShadeTokens.inputs ++ name) :
    (AuthorShaderInputFromShadingNodeAttr node src p name t).attributes attrName
      = p.attributes attrName := by
  unfold AuthorShaderInputFromShadingNodeAttr
  cases node.attr src with
  | none => rfl
  | some v => exact author_attributes_other p name _ v t attrName h

/-- The copying helper leaves the samples of the named input at other time
codes as they were. -/
theorem AuthorShaderInput_inputValue_time (node : MFnDependencyNode F) (src : TfToken)
    (p : UsdPrim F T) (name : TfToken) (t t1 : T) (h : t1 ≠ t) :
    UsdShadeShader.inputValue (AuthorShaderInputFromShadingNodeAttr node src p name t) name t1
      = UsdShadeShader.inputValue p name t1 := by
  unfold AuthorShaderInputFromShadingNodeAttr
  cases node.attr src with
  | none => rfl
  | some v => exact inputValue_author_time p name _ v t t1 h

variable [Mul F]

/-- The scaling helper either authors nothing or authors one colour on the
named input, whatever the destination. -/
theorem AuthorScaled_cases (node : MFnDependencyNode F) (src name : TfToken) (t : T)
    (scaling : TfToken) :
    (∀ p : UsdPrim F T,
        AuthorShaderInputFromScaledShadingNodeAttr node src p name t scaling = p) ∨
    (∃ v : VtValue F, ∀ p : UsdPrim F T,
        AuthorShaderInputFromScaledShadingNodeAttr node src p name t scaling
          = UsdShadeInput.Set (UsdShadeShader.CreateInput p name .color3f) name v t) := by
  unfold AuthorShaderInputFromScaledShadingNodeAttr
  generalize node.attr src = a
  generalize node.attr scaling = b
  rcases a with _ | (_ | _ | _) <;> rcases b with _ | (_ | _ | _) <;>
    first
    | (left; intro p; rfl)
    | (right; exact ⟨_, fun p => rfl⟩)

/-- The scaling helper leaves every attribute but the named input as it was. -/
theorem AuthorScaled_attributes_other (node : MFnDependencyNode F) (src : TfToken)
    (p : UsdPrim F T) (name : TfToken) (t : T) (scaling : TfToken) (attrName : TfToken)
    (h : attrName ≠ UsdShadeTokens.inputs ++ name) :
    (AuthorShaderInputFromScaledShadingNodeAttr node src p name t scaling).attributes attrName
      = p.attributes attrName := by
  rcases AuthorScaled_cases node src name t scaling with e | ⟨v, e⟩
  · rw [e]
  · rw [e]; exact author_attributes_other p name _ v t attrName h

theorem AuthorScaled_inputValue_time (node : MFnDependencyNode F) (src : TfToken)
    (p : UsdPrim F T) (name : TfToken) (t : T) (scaling : TfToken) (t1 : T) (h : t1 ≠ t) :
    UsdShadeShader.inputValue
        (AuthorShaderInputFromScaledShadingNodeAttr node src p name t scaling) name t1
      = UsdShadeShader.inputValue p name t1 := by
  rcases AuthorScaled_cases node src name t scaling with e | ⟨v, e⟩
  · rw [e]
  · rw [e]; exact inputValue_author_time p name _ v t t1 h

/-- WriteSpecular on a valid source handle: the scaling helper, then the flag. -/
theorem WriteSpecular_some (baseClass : PxrUsdTranslators_ReflectWriter F T)
    (node : MFnDependencyNode F) (p : UsdPrim F T) (t : T) :
    PxrUsdTranslators_BlinnWriter.WriteSpecular baseClass (some node) p t =
      UsdShadeInput.Set
        (UsdShadeShader.CreateInput
          (AuthorShaderInputFromScaledShadingNodeAttr node tokens.specularColor p
            tokens.specularColor t tokens.specularRollOff)
          tokens.useSpecularWorkflow .int)
        tokens.useSpecularWorkflow (.int 1) t := rfl

theorem specularColor_ne_flag : tokens.specularColor ≠ tokens.useSpecularWorkflow := by
  decide

end Operations

/-! ## An inherited Write that authors one input of its own -/

section Claims

open PxrUsdTranslators_BlinnWriter

/-- C1, as stated, fails: with a valid source node of eccentricity 3 and a
destination prim that is not valid, Write leaves the roughness input without a
value at the time code. -/
theorem C1_counterexample :
    blinnNode.attr tokens.eccentricity = some (.float 3) ∧
    UsdShadeShader.inputValue (Write idBase (some blinnNode) (emptyPrim false false) 4)
      tokens.roughness 4 = none ∧
    UsdShadeShader.inputValue (Write idBase (some blinnNode) (emptyPrim false false) 4)
      tokens.roughness 4 ≠ some (.float 3) := by
  decide

/-- C1, amended: for a valid source node whose eccentricity attribute has value
v, every time code t and every inherited Write, when the destination prim is a
valid shader as the inherited Write returns, the roughness input has value v at
time t after Write: the value is copied unchanged and overwrites whatever the
inherited Write authored for roughness at t. -/
theorem C1_Write_roughness {F T : Type} [DecidableEq T] (baseClass : PxrUsdTranslators_ReflectWriter F T)
    (node : MFnDependencyNode F) (v : VtValue F) (p : UsdPrim F T) (t : T)
    (hv : node.attr tokens.eccentricity = some v)
    (hs : UsdShadeShader.isValid (baseClass.Write (some node) p t) = true) :
    UsdShadeShader.inputValue (Write baseClass (some node) p t) tokens.roughness t = some v := by
  rw [Write_some_valid baseClass node p t hs]
  unfold AuthorShaderInputFromShadingNodeAttr
  rw [hv]
  exact inputValue_author_same _ _ _ v t

theorem C1_Write_roughness_witness :
    UsdShadeShader.inputValue (Write idBase (some blinnNode) (emptyPrim true true) 4)
      tokens.roughness 4 = some (.float 3) :=
  C1_Write_roughness idBase blinnNode (.float 3) (emptyPrim true true) 4 (by decide) (by decide)

/-- C2: for a valid source node with specular colour (c1, c2, c3) and specular
roll-off r, and every time code t, after WriteSpecular the specular colour
input at t is (r*c1, r*c2, r*c3), and the useSpecularWorkflow input has the
integer type and the value 1 at t. -/
theorem C2_WriteSpecular_values {F T : Type} [Mul F] [DecidableEq T]
    (baseClass : PxrUsdTranslators_ReflectWriter F T)
    (node : MFnDependencyNode F) (c1 c2 c3 r : F) (p : UsdPrim F T) (t : T)
    (hc : node.attr tokens.specularColor = some (.vec3f c1 c2 c3))
    (hr : node.attr tokens.specularRollOff = some (.float r)) :
    UsdShadeShader.inputValue (WriteSpecular baseClass (some node) p t) tokens.specularColor t
      = some (.vec3f (r * c1) (r * c2) (r * c3)) ∧
    UsdShadeShader.inputValue (WriteSpecular baseClass (some node) p t)
      tokens.useSpecularWorkflow t = some (.int 1) ∧
    (UsdShadeShader.GetInput (WriteSpecular baseClass (some node) p t)
      tokens.useSpecularWorkflow).map UsdAttribute.typeName = some .int := by
  rw [WriteSpecular_some]
  refine ⟨?_, inputValue_author_same _ _ _ _ t, ?_⟩
  · rw [inputValue_author_other _ _ _ _ _ _ _ specularColor_ne_flag]
    unfold AuthorShaderInputFromScaledShadingNodeAttr
    rw [hc, hr]
    exact inputValue_author_same _ _ _ _ t
  · simp [UsdShadeShader.GetInput, author_attributes_same]

theorem C2_WriteSpecular_values_witness :
    UsdShadeShader.inputValue (WriteSpecular idBase (some blinnNode) (emptyPrim true true) 4)
      tokens.specularColor 4 = some (.vec3f 14 21 35) :=
  (C2_WriteSpecular_values idBase blinnNode 2 3 5 7 (emptyPrim true true) 4
    (by decide) (by decide)).1

/-- C3, as stated, fails: on a writer whose destination prim is not valid the
query answers the empty token for eccentricity, not the qualified roughness
name. -/
theorem C3_counterexample :
    GetShadingAttributeNameForMayaAttrName idBase (emptyPrim false false) "eccentricity"
      ≠ UsdShadeTokens.inputs ++ "roughness" := by
  decide

/-- C3, amended: for every writer whose destination prim is valid and every
source attribute name n, the query returns the inputs namespace followed by
roughness when n is eccentricity, and what the inherited query returns for
every other n. -/
theorem C3_name_query {F T : Type} (baseClass : PxrUsdTranslators_ReflectWriter F T)
    (p : UsdPrim F T) (n : TfToken) (hp : p.valid = true) :
    (n = "eccentricity" →
      GetShadingAttributeNameForMayaAttrName baseClass p n
        = UsdShadeTokens.inputs ++ "roughness") ∧
    (n ≠ "eccentricity" →
      GetShadingAttributeNameForMayaAttrName baseClass p n
        = baseClass.GetShadingAttributeNameForMayaAttrName p n) := by
  constructor
  · intro hn
    simp [GetShadingAttributeNameForMayaAttrName, hp, hn, tokens.eccentricity, tokens.roughness]
  · intro hn
    simp [GetShadingAttributeNameForMayaAttrName, hp, hn, tokens.eccentricity]

theorem C3_name_query_witness :
    GetShadingAttributeNameForMayaAttrName idBase (emptyPrim true true) "eccentricity"
      = "inputs:roughness" ∧
    GetShadingAttributeNameForMayaAttrName idBase (emptyPrim true true) "color" = "color" :=
  ⟨(C3_name_query idBase (emptyPrim true true) "eccentricity" rfl).1 rfl,
   (C3_name_query idBase (emptyPrim true true) "color" rfl).2 (by decide)⟩

/-- C4: when the source node handle cannot be resolved, Write modifies no
destination attribute: with an inherited Write that follows the failure
semantics of the spec, the destination after Write is the destination before
it, whatever the inherited Write would copy on a resolved handle. -/
theorem C4_Write_unresolved_unchanged {F T : Type} [DecidableEq T]
    (baseClass : PxrUsdTranslators_ReflectWriter F T)
    (copy : MFnDependencyNode F → UsdPrim F T → T → UsdPrim F T)
    (p : UsdPrim F T) (t : T) :
    Write { baseClass with Write := ReflectWriter_Write copy } none p t = p := by
  rw [Write_none]
  rfl

/-- C5: when the source node handle cannot be resolved, WriteSpecular returns
the destination as it was, so neither the specular colour input nor the
useSpecularWorkflow input is created or set. -/
theorem C5_WriteSpecular_unresolved {F T : Type} [Mul F] [DecidableEq T]
    (baseClass : PxrUsdTranslators_ReflectWriter F T)
    (p : UsdPrim F T) (t : T) :
    WriteSpecular baseClass none p t = p := rfl

/-- C6: two writers that differ only in the inherited WriteSpecular give the
same destination after WriteSpecular, for every source handle, destination and
time code. -/
theorem C6_WriteSpecular_ignores_inherited {F T : Type} [Mul F] [DecidableEq T]
    (baseClass : PxrUsdTranslators_ReflectWriter F T)
    (f g : Option (MFnDependencyNode F) → UsdPrim F T → T → UsdPrim F T)
    (mayaObject : Option (MFnDependencyNode F)) (p : UsdPrim F T) (t : T) :
    WriteSpecular { baseClass with WriteSpecular := f } mayaObject p t
      = WriteSpecular { baseClass with WriteSpecular := g } mayaObject p t := rfl

/-- C8: for every valid source node, destination and time code t, after
WriteSpecular the useSpecularWorkflow input exists, has the integer type and
has the value 1 at t, whatever the source attributes are and whether or not a
specular colour was authored. -/
theorem C8_flag_unconditional {F T : Type} [Mul F] [DecidableEq T]
    (baseClass : PxrUsdTranslators_ReflectWriter F T)
    (node : MFnDependencyNode F) (p : UsdPrim F T) (t : T) :
    (UsdShadeShader.GetInput (WriteSpecular baseClass (some node) p t)
      tokens.useSpecularWorkflow).map UsdAttribute.typeName = some .int ∧
    UsdShadeShader.inputValue (WriteSpecular baseClass (some node) p t)
      tokens.useSpecularWorkflow t = some (.int 1) := by
  rw [WriteSpecular_some]
  refine ⟨?_, inputValue_author_same _ _ _ _ t⟩
  simp [UsdShadeShader.GetInput, author_attributes_same]

/-- C9: for every source handle, destination and time code t, the destination
after Write agrees with the destination after the inherited Write alone on
every attribute other than the roughness input, hence on every input other
than roughness, and on every sample of roughness at a time code other than t;
and WriteSpecular leaves every attribute other than the specularColor and
useSpecularWorkflow inputs as it was, and the samples of these two at every
time code other than t. -/
theorem C9_frame {F T : Type} [Mul F] [DecidableEq T]
    (baseClass : PxrUsdTranslators_ReflectWriter F T)
    (mayaObject : Option (MFnDependencyNode F)) (p : UsdPrim F T) (t : T) :
    (∀ attrName, attrName ≠ UsdShadeTokens.inputs ++ tokens.roughness →
      (Write baseClass mayaObject p t).attributes attrName
        = (baseClass.Write mayaObject p t).attributes attrName) ∧
    (∀ name, name ≠ tokens.roughness →
      UsdShadeShader.GetInput (Write baseClass mayaObject p t) name
        = UsdShadeShader.GetInput (baseClass.Write mayaObject p t) name) ∧
    (∀ t1, t1 ≠ t →
      UsdShadeShader.inputValue (Write baseClass mayaObject p t) tokens.roughness t1
        = UsdShadeShader.inputValue (baseClass.Write mayaObject p t) tokens.roughness t1) ∧
    (∀ attrName, attrName ≠ UsdShadeTokens.inputs ++ tokens.specularColor →
      attrName ≠ UsdShadeTokens.inputs ++ tokens.useSpecularWorkflow →
      (WriteSpecular baseClass mayaObject p t).attributes attrName = p.attributes attrName) ∧
    (∀ name, name ≠ tokens.specularColor → name ≠ tokens.useSpecularWorkflow →
      UsdShadeShader.GetInput (WriteSpecular baseClass mayaObject p t) name
        = UsdShadeShader.GetInput p name) ∧
    (∀ t1, t1 ≠ t →
      UsdShadeShader.inputValue (WriteSpecular baseClass mayaObject p t) tokens.specularColor t1
        = UsdShadeShader.inputValue p tokens.specularColor t1 ∧
      UsdShadeShader.inputValue (WriteSpecular baseClass mayaObject p t)
          tokens.useSpecularWorkflow t1
        = UsdShadeShader.inputValue p tokens.useSpecularWorkflow t1) := by
  have hW : ∀ attrName, attrName ≠ UsdShadeTokens.inputs ++ tokens.roughness →
      (Write baseClass mayaObject p t).attributes attrName
        = (baseClass.Write mayaObject p t).attributes attrName := by
    intro attrName h
    cases mayaObject with
    | none => rfl
    | some node =>
      cases hs : UsdShadeShader.isValid (baseClass.Write (some node) p t) with
      | false => rw [Write_some_invalid baseClass node p t hs]
      | true =>
        rw [Write_some_valid baseClass node p t hs]
        exact AuthorShaderInput_attributes_other node _ _ _ t attrName h
  have hS : ∀ attrName, attrName ≠ UsdShadeTokens.inputs ++ tokens.specularColor →
      attrName ≠ UsdShadeTokens.inputs ++ tokens.useSpecularWorkflow →
      (WriteSpecular baseClass mayaObject p t).attributes attrName = p.attributes attrName := by
    intro attrName h1 h2
    cases mayaObject with
    | none => rfl
    | some node =>
      rw [WriteSpecular_some, author_attributes_other _ _ _ _ _ _ h2]
      exact AuthorScaled_attributes_other node _ p _ t _ attrName h1
  refine ⟨hW, ?_, ?_, hS, ?_, ?_⟩
  · intro name h
    exact hW _ (inputs_append_ne h)
  · intro t1 h
    cases mayaObject with
    | none => rfl
    | some node =>
      cases hs : UsdShadeShader.isValid (baseClass.Write (some node) p t) with
      | false => rw [Write_some_invalid baseClass node p t hs]
      | true =>
        rw [Write_some_valid baseClass node p t hs]
        exact AuthorShaderInput_inputValue_time node _ _ _ t t1 h
  · intro name h1 h2
    exact hS _ (inputs_append_ne h1) (inputs_append_ne h2)
  · intro t1 h
    cases mayaObject with
    | none => exact ⟨rfl, rfl⟩
    | some node =>
      rw [WriteSpecular_some]
      constructor
      · rw [inputValue_author_other _ _ _ _ _ _ _ specularColor_ne_flag]
        exact AuthorScaled_inputValue_time node _ p _ t _ t1 h
      · rw [inputValue_author_time _ _ _ _ t t1 h]
        unfold UsdShadeShader.inputValue UsdShadeShader.GetInput
        rw [AuthorScaled_attributes_other node _ p _ t _ _
          (inputs_append_ne specularColor_ne_flag.symm)]

theorem C9_frame_witness :
    UsdShadeShader.GetInput (Write stampBase (some blinnNode) (emptyPrim true true) 4)
        "diffuseColor"
      = UsdShadeShader.GetInput (stampBase.Write (some blinnNode) (emptyPrim true true) 4)
        "diffuseColor" ∧
    UsdShadeShader.inputValue (Write stampBase (some blinnNode) (emptyPrim true true) 4)
        tokens.roughness 5
      = UsdShadeShader.inputValue (stampBase.Write (some blinnNode) (emptyPrim true true) 4)
        tokens.roughness 5 ∧
    UsdShadeShader.GetInput (WriteSpecular stampBase (some blinnNode) (emptyPrim true true) 4)
        "diffuseColor"
      = UsdShadeShader.GetInput (emptyPrim true true) "diffuseColor" ∧
    UsdShadeShader.inputValue (WriteSpecular stampBase (some blinnNode) (emptyPrim true true) 4)
        tokens.specularColor 5
      = UsdShadeShader.inputValue (emptyPrim true true) tokens.specularColor 5 :=
  ⟨(C9_frame stampBase (some blinnNode) (emptyPrim true true) 4).2.1 "diffuseColor"
      (by decide),
   (C9_frame stampBase (some blinnNode) (emptyPrim true true) 4).2.2.1 5 (by decide),
   (C9_frame stampBase (some blinnNode) (emptyPrim true true) 4).2.2.2.2.1 "diffuseColor"
      (by decide) (by decide),
   ((C9_frame stampBase (some blinnNode) (emptyPrim true true) 4).2.2.2.2.2 5
      (by decide)).1⟩

/-- C10: when the destination prim is not valid the query returns the empty
token for every source attribute name, eccentricity included, whatever the
inherited query is; when the destination prim is valid the result for
eccentricity is not empty and is the same whatever the inherited query is. -/
theorem C10_name_query_validity {F T : Type}
    (baseClass other : PxrUsdTranslators_ReflectWriter F T)
    (p : UsdPrim F T) (n : TfToken) :
    (p.valid = false →
      GetShadingAttributeNameForMayaAttrName baseClass p n = "" ∧
      GetShadingAttributeNameForMayaAttrName baseClass p tokens.eccentricity = "" ∧
      GetShadingAttributeNameForMayaAttrName baseClass p n
        = GetShadingAttributeNameForMayaAttrName other p n) ∧
    (p.valid = true →
      GetShadingAttributeNameForMayaAttrName baseClass p tokens.eccentricity ≠ "" ∧
      GetShadingAttributeNameForMayaAttrName baseClass p tokens.eccentricity
        = GetShadingAttributeNameForMayaAttrName other p tokens.eccentricity) := by
  constructor
  · intro hp
    simp [GetShadingAttributeNameForMayaAttrName, hp]
  · intro hp
    have e : ∀ b : PxrUsdTranslators_ReflectWriter F T,
        GetShadingAttributeNameForMayaAttrName b p tokens.eccentricity
          = UsdShadeTokens.inputs ++ tokens.roughness := by
      intro b
      simp [GetShadingAttributeNameForMayaAttrName, hp]
    rw [e baseClass, e other]
    exact ⟨by decide, rfl⟩

theorem C10_name_query_validity_witness :
    GetShadingAttributeNameForMayaAttrName idBase (emptyPrim false true) "color" = "" ∧
    GetShadingAttributeNameForMayaAttrName idBase (emptyPrim true true) tokens.eccentricity
      ≠ "" :=
  ⟨((C10_name_query_validity idBase stampBase (emptyPrim false true) "color").1 rfl).1,
   ((C10_name_query_validity idBase stampBase (emptyPrim true true) "color").2 rfl).1⟩

end Claims

end MayaUsd
